import Mathlib

/-!
Shallow embedding of `src/CRD/kmt_sracper.py` (class `KMTScraper`).

Strings are Lean `String`s; Python `str.split`, `str.strip`, `str.lower` and
the membership test `pat in s` are modelled by executable functions on
`List Char` below, with Python semantics.  External collaborators (the HTTP
session, BeautifulSoup's HTML parser and the `re` regex engine applied to raw
page text) are modelled as inputs: a fetched page is an optional string, a
parsed page is a `PageDoc` carrying the DOM views the scraper queries.
-/

/-- Python `s.split(sep)` for a single-character separator `sep`:
split at every occurrence, keeping empty fields.  `"".split(sep) == [""]`. -/
def splitOnChar (sep : Char) : List Char → List (List Char)
  | [] => [[]]
  | c :: cs =>
    if c = sep then [] :: splitOnChar sep cs
    else
      match splitOnChar sep cs with
      | [] => [[c]]
      | t :: ts => (c :: t) :: ts

/-- Python `s.split(">>")`: split at every non-overlapping occurrence of the
two-character separator `>>`, scanning left to right. -/
def splitOnGtGt : List Char → List (List Char)
  | [] => [[]]
  | [c] => [[c]]
  | c1 :: c2 :: cs =>
    if c1 = '>' ∧ c2 = '>' then [] :: splitOnGtGt cs
    else
      match splitOnGtGt (c2 :: cs) with
      | [] => [[c1]]
      | t :: ts => (c1 :: t) :: ts

/-- Number of occurrences of the character `c`. -/
def countChar (c : Char) : List Char → Nat
  | [] => 0
  | d :: ds => (if d = c then 1 else 0) + countChar c ds

/-- `smiles.split(">")` at the `String` level. -/
def pySplitGt (s : String) : List String :=
  (splitOnChar '>' s.data).map (fun l => String.mk l)

/-- `field.split(".")` at the `String` level. -/
def pySplitDot (s : String) : List String :=
  (splitOnChar '.' s.data).map (fun l => String.mk l)

/-- `smiles.split(">>")` at the `String` level. -/
def pySplitGtGt (s : String) : List String :=
  (splitOnGtGt s.data).map (fun l => String.mk l)

/-- Python `s.strip()`: drop leading and trailing whitespace. -/
def pyStrip (s : String) : String :=
  String.mk (((s.data.dropWhile Char.isWhitespace).reverse.dropWhile
    Char.isWhitespace).reverse)

/-- Python `s.lower()` (ASCII case folding suffices for the scraper's data). -/
def pyLower (s : String) : String :=
  String.mk (s.data.map Char.toLower)

/-- Python `pat in s`: substring containment. -/
def strContains (s pat : String) : Bool :=
  decide (List.IsInfix pat.data s.data)

/-- Python `s.startswith(pat)`. -/
def strStartsWith (s pat : String) : Bool :=
  pat.data.isPrefixOf s.data

/-- Python `s.endswith(pat)` (used only to state properties about URLs). -/
def strEndsWith (s pat : String) : Bool :=
  pat.data.isSuffixOf s.data

/-- The parsed dictionary produced by `KMTScraper._parse_smiles_string`. -/
structure ParsedSmiles where
  reactants : List String
  reagents : List String
  products : List String
deriving DecidableEq, Repr

/-- The list comprehension `[s for s in field.split(".") if s]` applied to one
field: split on `.` and keep the non-empty fragments. -/
def split_fragments (s : String) : List String :=
  (pySplitDot s).filter (fun t => t ≠ "")

/-- `KMTScraper._parse_smiles_string` (kmt_sracper.py lines 61-77):
empty input fails; otherwise split on `>`; with fewer than 3 parts fall back
to splitting on `>>` (exactly 2 parts gives `[p0, "", p1]`, anything else
fails); finally each of the three fields is split on `.` keeping non-empty
fragments. -/
def parse_smiles_string (smiles : String) : Option ParsedSmiles :=
  if smiles = "" then none
  else
    let parts := pySplitGt smiles
    if parts.length < 3 then
      let parts2 := pySplitGtGt smiles
      if parts2.length = 2 then
        some ⟨split_fragments (parts2.getD 0 ""), split_fragments "",
              split_fragments (parts2.getD 1 "")⟩
      else none
    else
      some ⟨split_fragments (parts.getD 0 ""), split_fragments (parts.getD 1 ""),
            split_fragments (parts.getD 2 "")⟩

/-- `KMTScraper.BASE_URL`. -/
def BASE_URL : String := "https://kmt.vander-lingen.nl"

/-- `KMTScraper._build_url`: `f"{BASE_URL}/data/reaction/doi/{doi}/start/{start}"`. -/
def build_url (doi : String) (start : Nat) : String :=
  BASE_URL ++ "/data/reaction/doi/" ++ doi ++ "/start/" ++ toString start

/-- Value of the digit run `ds` read in base 10 (Python `int(...)` on the
captured group). -/
def digitsToNat (ds : List Char) : Nat :=
  ds.foldl (fun n c => n * 10 + (c.toNat - 48)) 0

/-- Attempt to match the regex `/start/(\d+)` anchored at the head of `cs`:
the literal `/start/` followed by a maximal non-empty digit run (greedy `\d+`). -/
def matchStartAt (cs : List Char) : Option Nat :=
  if "/start/".data.isPrefixOf cs then
    let ds := (cs.drop 7).takeWhile Char.isDigit
    if ds = [] then none else some (digitsToNat ds)
  else none

/-- `re.search(r"/start/(\d+)", url)`: leftmost match, greedy digit run,
returning the captured number. -/
def searchStart : List Char → Option Nat
  | [] => none
  | c :: cs =>
    match matchStartAt (c :: cs) with
    | some n => some n
    | none => searchStart cs

/-- A DOM element as queried by the attribute scan: the value of its
`data-reaction-smiles` attribute, when the attribute is present. -/
structure Element where
  dataReactionSmiles : Option String
deriving DecidableEq, Repr

/-- An anchor (`<a href=...>`) as queried by the pagination resolver:
`text` models `get_text(strip=True)` and `href` the `href` attribute. -/
structure Anchor where
  text : String
  href : String
deriving DecidableEq, Repr

/-- The DOM views of one parsed page that the scraper queries
(`BeautifulSoup` is an external collaborator): the elements carrying a
`data-reaction-smiles` attribute, the anchors with an `href`, and the
`get_text(strip=True)` texts of all `td`/`th` cells of all tables, in
document order. -/
structure Soup where
  elements : List Element
  anchors : List Anchor
  tableCells : List String
deriving DecidableEq, Repr

/-- One fetched page as the scraper sees it: its parsed DOM plus the capture
groups produced by the three `re.findall` patterns of
`_extract_from_javascript` over the raw page text (the regex engine applied
to raw HTML is an external collaborator; the subsequent `">" in m` filter,
which is the scraper's own logic, is modelled below). -/
structure PageDoc where
  soup : Soup
  jsMatches : List String
deriving Repr

/-- `KMTScraper._extract_from_data_attributes` (lines 82-87): for every
element carrying the attribute, if the raw attribute value is non-empty
(Python truthiness), contribute its stripped value. -/
def extract_from_data_attributes (soup : Soup) : List String :=
  (((soup.elements.filterMap (fun el => el.dataReactionSmiles)).filter
    (fun v => v ≠ "")).map pyStrip)

/-- `KMTScraper._extract_from_javascript` (lines 89-100): of the regex
captures, keep those containing a `>`. -/
def extract_from_javascript (p : PageDoc) : List String :=
  p.jsMatches.filter (fun m => strContains m ">")

/-- Character class of the table-cell guard regex
`^[A-Za-z0-9\[\]()=#@+\-\\/.>]+$`. -/
def smilesChar (c : Char) : Bool :=
  c.isAlphanum || c = '[' || c = ']' || c = '(' || c = ')' || c = '=' ||
  c = '#' || c = '@' || c = '+' || c = '-' || c = '\\' || c = '/' ||
  c = '.' || c = '>'

/-- `KMTScraper._extract_from_tables` (lines 102-112): a cell's stripped text
is kept when it contains both `>` and `.` and consists solely of characters
of the guard class (non-empty, by the `+` quantifier). -/
def extract_from_tables (soup : Soup) : List String :=
  soup.tableCells.filter (fun text =>
    strContains text ">" && strContains text "." &&
    (text ≠ "" && text.data.all smilesChar))

/-- `KMTScraper._find_next_page_url` (lines 116-126): the first anchor whose
lowered text contains `next` wins (its href absolutized against `BASE_URL`
unless it starts with `http`); otherwise, if the current URL matches
`/start/(\d+)`, build the URL for that offset plus 10; otherwise no next
page. -/
def find_next_page_url (doi : String) (soup : Soup) (current_url : String) :
    Option String :=
  match soup.anchors.find? (fun link => strContains (pyLower link.text) "next") with
  | some link =>
    some (if strStartsWith link.href "http" then link.href
          else BASE_URL ++ link.href)
  | none =>
    match searchStart current_url.data with
    | some n => some (build_url doi (n + 10))
    | none => none

/-- The `ReactionData` dataclass (kmt_sracper.py lines 15-22). -/
structure ReactionData where
  reaction_smiles : String
  reactant_smiles : List String
  reagent_smiles : List String
  product_smiles : List String
  source_url : String
  scraped_at : String
deriving DecidableEq, Repr

/-- `KMTScraper._process_page` (lines 131-158): union the three extractors
into a set of candidates (Python iterates the set in an unspecified order;
we fix first-occurrence order of the concatenation — the properties proved
below do not depend on this order), then keep each candidate whose parse
succeeds with a non-empty products list, stamping url and timestamp. -/
def process_page (p : PageDoc) (url ts : String) : List ReactionData :=
  let all_smiles :=
    (extract_from_data_attributes p.soup ++ extract_from_javascript p ++
      extract_from_tables p.soup).dedup
  all_smiles.filterMap (fun smiles =>
    match parse_smiles_string smiles with
    | none => none
    | some parsed =>
      if parsed.products = [] then none
      else some (ReactionData.mk smiles parsed.reactants parsed.reagents
        parsed.products url ts))

/-- The `reaction_smiles` keys of an accumulated record list
(`{x.reaction_smiles for x in self.collected_reactions}`). -/
def reactionKeys (acc : List ReactionData) : List String :=
  acc.map (fun x => x.reaction_smiles)

/-- The body of the accumulation loop in `KMTScraper.scrape` (lines 177-180):
append `r` only if its `reaction_smiles` is not already a key. -/
def insert_reaction (acc : List ReactionData) (r : ReactionData) : List ReactionData :=
  if r.reaction_smiles ∈ reactionKeys acc then acc else acc ++ [r]

/-- The external collaborators of `KMTScraper.scrape`: the publication doi,
the HTTP fetch (`_fetch_page`: `none` models a request failure), the
HTML-to-DOM parse (`BeautifulSoup`), and the clock (`datetime.now()`,
indexed by remaining fuel; the politeness `time.sleep` is a no-op here). -/
structure CrawlEnv where
  doi : String
  fetch : String → Option String
  parseDoc : String → PageDoc
  now : Nat → String

/-- The `while` loop of `KMTScraper.scrape` (lines 161-189), with
`fuel = max_pages - pages_scraped`.  Returns the accumulated records and the
list of URLs passed to `_fetch_page`, in fetch order.  A loop iteration
runs when a current URL exists and fuel remains; it breaks on a previously
seen URL, on fetch failure, and on an empty page text (`if not html`). -/
def scrape_loop (env : CrawlEnv) :
    Option String → List String → Nat → List ReactionData →
    List ReactionData × List String
  | none, _, _, acc => (acc, [])
  | some _, _, 0, acc => (acc, [])
  | some url, seen, fuel + 1, acc =>
    if url ∈ seen then (acc, [])
    else
      match env.fetch url with
      | none => (acc, [url])
      | some html =>
        if html = "" then (acc, [url])
        else
          let p := env.parseDoc html
          let reactions := process_page p url (env.now (fuel + 1))
          let acc2 := reactions.foldl insert_reaction acc
          let next := find_next_page_url env.doi p.soup url
          let rest := scrape_loop env next (url :: seen) fuel acc2
          (rest.1, url :: rest.2)

/-- `KMTScraper.scrape` on a fresh scraper (`collected_reactions = []`),
starting from `_build_url(0)` with an empty visited set. -/
def scrape (env : CrawlEnv) (max_pages : Nat) : List ReactionData × List String :=
  scrape_loop env (some (build_url env.doi 0)) [] max_pages []

theorem string_mk_data (s : String) : String.mk s.data = s := rfl

theorem splitOnChar_ne_nil (sep : Char) (s : List Char) :
    splitOnChar sep s ≠ [] := by
  cases s with
  | nil => simp [splitOnChar]
  | cons c cs =>
    by_cases h : c = sep
    · simp [splitOnChar, h]
    · simp only [splitOnChar, if_neg h]
      cases splitOnChar sep cs <;> simp

theorem length_splitOnChar (sep : Char) (s : List Char) :
    (splitOnChar sep s).length = countChar sep s + 1 := by
  induction s with
  | nil => rfl
  | cons c cs ih =>
    simp only [splitOnChar, countChar]
    by_cases h : c = sep
    · rw [if_pos h, if_pos h]
      simp [ih]
      omega
    · rw [if_neg h, if_neg h]
      cases hsp : splitOnChar sep cs with
      | nil => exact absurd hsp (splitOnChar_ne_nil sep cs)
      | cons t ts =>
        rw [hsp] at ih
        simp at ih ⊢
        omega

theorem splitOnGtGt_eq_self (s : List Char) (h : countChar '>' s ≤ 1) :
    splitOnGtGt s = [s] := by
  induction s with
  | nil => rfl
  | cons c cs ih =>
    cases cs with
    | nil => rfl
    | cons c2 cs2 =>
      by_cases hgt : c = '>' ∧ c2 = '>'
      · exfalso
        obtain ⟨h1, h2⟩ := hgt
        subst h1
        subst h2
        simp [countChar] at h
      · have hc : countChar '>' (c2 :: cs2) ≤ 1 := by
          simp only [countChar] at h ⊢
          omega
        simp only [splitOnGtGt, if_neg hgt, ih hc]

theorem length_pySplitGt (s : String) :
    (pySplitGt s).length = countChar '>' s.data + 1 := by
  simp [pySplitGt, length_splitOnChar]

theorem pySplitGtGt_eq_self (s : String) (h : (pySplitGt s).length < 3) :
    pySplitGtGt s = [s] := by
  have hc : countChar '>' s.data ≤ 1 := by
    rw [length_pySplitGt] at h
    omega
  simp [pySplitGtGt, splitOnGtGt_eq_self s.data hc, string_mk_data]

theorem pySplitGt_empty : pySplitGt "" = [""] := rfl

theorem parse_three_field (s : String) (h : 3 ≤ (pySplitGt s).length) :
    parse_smiles_string s =
      some ⟨split_fragments ((pySplitGt s).getD 0 ""),
            split_fragments ((pySplitGt s).getD 1 ""),
            split_fragments ((pySplitGt s).getD 2 "")⟩ := by
  have hs : s ≠ "" := by
    intro he
    rw [he, pySplitGt_empty] at h
    simp at h
  simp only [parse_smiles_string, if_neg hs]
  rw [if_neg (by omega)]

theorem parse_none_of_lt (s : String) (h : (pySplitGt s).length < 3) :
    parse_smiles_string s = none := by
  by_cases hs : s = ""
  · rw [hs]; rfl
  · simp only [parse_smiles_string, if_neg hs]
    rw [if_pos h, if_neg (by rw [pySplitGtGt_eq_self s h]; simp)]

theorem mem_split_fragments_ne_empty (s t : String) (h : t ∈ split_fragments s) :
    t ≠ "" := by
  simp only [split_fragments, List.mem_filter, decide_eq_true_eq] at h
  exact h.2

/-- Claim C1: for every string whose split on `>` yields at least 3 parts,
`_parse_smiles_string` succeeds with reactants from part 0, reagents from
part 1, products from part 2 (parts beyond index 2 ignored); in particular
`parse("A.B>C>D")` yields reactants `["A","B"]`, reagents `["C"]`,
products `["D"]`. -/
theorem claim_C1_three_field_split (s : String)
    (h : 3 ≤ (pySplitGt s).length) :
    parse_smiles_string s =
      some ⟨split_fragments ((pySplitGt s).getD 0 ""),
            split_fragments ((pySplitGt s).getD 1 ""),
            split_fragments ((pySplitGt s).getD 2 "")⟩ ∧
    parse_smiles_string "A.B>C>D" = some ⟨["A", "B"], ["C"], ["D"]⟩ :=
  ⟨parse_three_field s h, by decide⟩

theorem claim_C1_witness :
    3 ≤ (pySplitGt "A.B>C>D").length ∧
    parse_smiles_string "A.B>C>D" = some ⟨["A", "B"], ["C"], ["D"]⟩ :=
  ⟨by decide, (claim_C1_three_field_split "A.B>C>D" (by decide)).2⟩

/-- Claim C4: when the split on `>` has fewer than 3 parts the parser falls
back to splitting on `>>`: exactly 2 parts gives reactants from part 0,
empty reagents and products from part 1, anything else fails; in particular
`parse("A>>D") = {["A"],[],["D"]}`, and `parse("no-separator-here")` and
`parse("")` return no result. -/
theorem claim_C4_two_field_fallback (s : String)
    (h : (pySplitGt s).length < 3) :
    ((pySplitGtGt s).length = 2 →
      parse_smiles_string s =
        some ⟨split_fragments ((pySplitGtGt s).getD 0 ""), [],
              split_fragments ((pySplitGtGt s).getD 1 "")⟩) ∧
    ((pySplitGtGt s).length ≠ 2 → parse_smiles_string s = none) ∧
    parse_smiles_string "A>>D" = some ⟨["A"], [], ["D"]⟩ ∧
    parse_smiles_string "no-separator-here" = none ∧
    parse_smiles_string "" = none := by
  refine ⟨?_, ?_, by decide, by decide, by decide⟩
  · intro h2
    have hs : s ≠ "" := by
      intro he
      rw [he, show pySplitGtGt "" = [""] from rfl] at h2
      simp at h2
    simp only [parse_smiles_string, if_neg hs]
    rw [if_pos h, if_pos h2]
    rfl
  · intro h2
    by_cases hs : s = ""
    · rw [hs]; rfl
    · simp only [parse_smiles_string, if_neg hs]
      rw [if_pos h, if_neg h2]

theorem claim_C4_witness :
    (pySplitGt "no-separator-here").length < 3 ∧
    parse_smiles_string "no-separator-here" = none :=
  ⟨by decide,
   (claim_C4_two_field_fallback "no-separator-here" (by decide)).2.1 (by decide)⟩

/-- Claim C5: each field is split on `.` into its non-empty fragments,
dropping empties from consecutive, leading or trailing dots:
`split_fragments "A.B..C" = ["A","B","C"]`, `split_fragments "" = []`,
`split_fragments "." = []`, every fragment of a parsed result is non-empty. -/
theorem claim_C5_fragment_splitting :
    (split_fragments "A.B..C" = ["A", "B", "C"] ∧ split_fragments "" = [] ∧
      split_fragments "." = []) ∧
    (∀ s t, t ∈ split_fragments s → t ≠ "") ∧
    (∀ s r, parse_smiles_string s = some r →
      ∀ t, t ∈ r.reactants ∨ t ∈ r.reagents ∨ t ∈ r.products → t ≠ "") := by
  refine ⟨⟨by decide, by decide, by decide⟩, mem_split_fragments_ne_empty, ?_⟩
  intro s r hr t ht
  by_cases hlen : 3 ≤ (pySplitGt s).length
  · rw [parse_three_field s hlen] at hr
    cases hr
    rcases ht with h | h | h <;> exact mem_split_fragments_ne_empty _ t h
  · rw [parse_none_of_lt s (by omega)] at hr
    cases hr

theorem claim_C5_witness :
    ("A" : String) ∈ split_fragments "A.B..C" ∧ ("A" : String) ≠ "" :=
  ⟨by decide, claim_C5_fragment_splitting.2.1 "A.B..C" "A" (by decide)⟩

/-- Claim C9: `_parse_smiles_string s` succeeds iff `s.split(">")` has at
least 3 parts, i.e. `s` contains at least two `>` characters; the `>>`
fallback can never succeed, because a string whose `>`-split has fewer than
3 parts contains at most one `>` and so its `>>`-split is the whole string
(1 part, never 2). -/
theorem claim_C9_parse_success_iff (s : String) :
    ((parse_smiles_string s).isSome = true ↔ 3 ≤ (pySplitGt s).length) ∧
    (3 ≤ (pySplitGt s).length ↔ 2 ≤ countChar '>' s.data) ∧
    ((pySplitGt s).length < 3 → pySplitGtGt s = [s]) := by
  refine ⟨⟨?_, ?_⟩, ?_, pySplitGtGt_eq_self s⟩
  · intro hsome
    by_contra hlt
    rw [parse_none_of_lt s (by omega)] at hsome
    simp at hsome
  · intro h
    rw [parse_three_field s h]
    rfl
  · rw [length_pySplitGt]
    omega

theorem claim_C9_witness :
    (pySplitGt "A>B").length < 3 ∧ pySplitGtGt "A>B" = ["A>B"] ∧
    (parse_smiles_string "A>B").isSome = false :=
  ⟨by decide, (claim_C9_parse_success_iff "A>B").2.2 (by decide), by decide⟩

/-- Claim C6: when no anchor's trimmed text case-insensitively contains
"next", a current URL with a `/start/<digits>` segment yields the URL for
that offset plus 10 (a URL ending `/start/20` yields one ending
`/start/30`), and a current URL with no such segment yields no next page. -/
theorem claim_C6_pagination_fallback (doi : String) (soup : Soup) (url : String)
    (h : ∀ a ∈ soup.anchors, strContains (pyLower a.text) "next" = false) :
    (∀ n, searchStart url.data = some n →
      find_next_page_url doi soup url = some (build_url doi (n + 10))) ∧
    (searchStart url.data = none → find_next_page_url doi soup url = none) := by
  have hfind : soup.anchors.find?
      (fun link => strContains (pyLower link.text) "next") = none := by
    rw [List.find?_eq_none]
    intro a ha
    simp [h a ha]
  constructor
  · intro n hn
    simp only [find_next_page_url, hfind, hn]
  · intro hn
    simp only [find_next_page_url, hfind, hn]

theorem claim_C6_witness :
    searchStart (build_url "10.1021/jacsau.4c01276" 20).data = some 20 ∧
    find_next_page_url "10.1021/jacsau.4c01276" (Soup.mk [] [] [])
        (build_url "10.1021/jacsau.4c01276" 20) =
      some (build_url "10.1021/jacsau.4c01276" 30) ∧
    strEndsWith (build_url "10.1021/jacsau.4c01276" 20) "/start/20" = true ∧
    strEndsWith (build_url "10.1021/jacsau.4c01276" 30) "/start/30" = true := by
  refine ⟨by decide, ?_, by decide, by decide⟩
  exact (claim_C6_pagination_fallback "10.1021/jacsau.4c01276" (Soup.mk [] [] [])
    (build_url "10.1021/jacsau.4c01276" 20)
    (fun a ha => absurd ha (List.not_mem_nil a))).1 20 (by decide)

/-- Claim C8 counterexample: the attribute-scan guard tests the RAW
attribute value, so an element whose `data-reaction-smiles` value is the
whitespace-only string `" "` contributes the empty string to the candidate
list — the claim says a whitespace-only value contributes nothing. -/
theorem claim_C8_counterexample :
    extract_from_data_attributes (Soup.mk [Element.mk (some " ")] [] []) = [""] ∧
    pyStrip " " = "" ∧
    extract_from_data_attributes (Soup.mk [Element.mk (some " ")] [] []) ≠ [] :=
  ⟨by decide, by decide, by decide⟩

/-- Claim C8 (amended): an element carrying the attribute contributes its
trimmed value exactly when the untrimmed (raw) value is non-empty; hence a
whitespace-only raw value contributes the (empty) trimmed value rather than
nothing. -/
theorem claim_C8_attribute_scan_amended (soup : Soup) :
    (∀ el ∈ soup.elements, ∀ v, el.dataReactionSmiles = some v → v ≠ "" →
      pyStrip v ∈ extract_from_data_attributes soup) ∧
    (∀ x ∈ extract_from_data_attributes soup,
      ∃ el ∈ soup.elements, ∃ v, el.dataReactionSmiles = some v ∧ v ≠ "" ∧
        x = pyStrip v) := by
  constructor
  · intro el hel v hv hne
    simp only [extract_from_data_attributes, List.mem_map, List.mem_filter,
      List.mem_filterMap, decide_eq_true_eq]
    exact ⟨v, ⟨⟨el, hel, hv⟩, hne⟩, rfl⟩
  · intro x hx
    simp only [extract_from_data_attributes, List.mem_map, List.mem_filter,
      List.mem_filterMap, decide_eq_true_eq] at hx
    obtain ⟨v, ⟨⟨el, hel, hv⟩, hne⟩, hmap⟩ := hx
    exact ⟨el, hel, v, hv, hne, hmap.symm⟩

theorem claim_C8_witness :
    Element.mk (some " A ") ∈ (Soup.mk [Element.mk (some " A ")] [] []).elements ∧
    (" A " : String) ≠ "" ∧
    pyStrip " A " ∈
      extract_from_data_attributes (Soup.mk [Element.mk (some " A ")] [] []) :=
  ⟨by decide, by decide,
   (claim_C8_attribute_scan_amended (Soup.mk [Element.mk (some " A ")] [] [])).1
     (Element.mk (some " A ")) (by decide) " A " rfl (by decide)⟩

theorem scrape_loop_seen (env : CrawlEnv) (url : String) (seen : List String)
    (fuel : Nat) (acc : List ReactionData) (h : url ∈ seen) :
    scrape_loop env (some url) seen (fuel + 1) acc = (acc, []) := by
  simp only [scrape_loop, if_pos h]

theorem scrape_loop_fetch_none (env : CrawlEnv) (url : String)
    (seen : List String) (fuel : Nat) (acc : List ReactionData)
    (h1 : url ∉ seen) (h2 : env.fetch url = none) :
    scrape_loop env (some url) seen (fuel + 1) acc = (acc, [url]) := by
  simp only [scrape_loop, if_neg h1, h2]

theorem scrape_loop_fetch_empty (env : CrawlEnv) (url : String)
    (seen : List String) (fuel : Nat) (acc : List ReactionData)
    (h1 : url ∉ seen) (h2 : env.fetch url = some "") :
    scrape_loop env (some url) seen (fuel + 1) acc = (acc, [url]) := by
  simp only [scrape_loop, if_neg h1, h2]
  simp

theorem scrape_loop_step (env : CrawlEnv) (url : String) (seen : List String)
    (fuel : Nat) (acc : List ReactionData) (html : String)
    (h1 : url ∉ seen) (h2 : env.fetch url = some html) (h3 : html ≠ "") :
    scrape_loop env (some url) seen (fuel + 1) acc =
      ((scrape_loop env (find_next_page_url env.doi (env.parseDoc html).soup url)
          (url :: seen) fuel
          ((process_page (env.parseDoc html) url (env.now (fuel + 1))).foldl
            insert_reaction acc)).1,
       url :: (scrape_loop env
          (find_next_page_url env.doi (env.parseDoc html).soup url)
          (url :: seen) fuel
          ((process_page (env.parseDoc html) url (env.now (fuel + 1))).foldl
            insert_reaction acc)).2) := by
  simp only [scrape_loop, if_neg h1, h2, if_neg h3]

theorem mem_insert_reaction (acc : List ReactionData) (a r : ReactionData)
    (h : r ∈ insert_reaction acc a) : r ∈ acc ∨ r = a := by
  unfold insert_reaction at h
  split at h
  · exact Or.inl h
  · rcases List.mem_append.mp h with h' | h'
    · exact Or.inl h'
    · exact Or.inr (List.mem_singleton.mp h')

theorem mem_foldl_insert (l : List ReactionData) :
    ∀ (acc : List ReactionData) (r : ReactionData),
      r ∈ l.foldl insert_reaction acc → r ∈ acc ∨ r ∈ l := by
  induction l with
  | nil => intro acc r h; exact Or.inl h
  | cons a l ih =>
    intro acc r h
    rcases ih (insert_reaction acc a) r h with h' | h'
    · rcases mem_insert_reaction acc a r h' with h'' | h''
      · exact Or.inl h''
      · exact Or.inr (h'' ▸ List.mem_cons_self a l)
    · exact Or.inr (List.mem_cons_of_mem a h')

theorem reactionKeys_append (acc : List ReactionData) (r : ReactionData) :
    reactionKeys (acc ++ [r]) = reactionKeys acc ++ [r.reaction_smiles] := by
  simp [reactionKeys]

theorem nodup_insert_reaction (acc : List ReactionData) (r : ReactionData)
    (h : (reactionKeys acc).Nodup) :
    (reactionKeys (insert_reaction acc r)).Nodup := by
  unfold insert_reaction
  split
  · exact h
  · rename_i hmem
    rw [reactionKeys_append]
    refine List.Nodup.append h (List.nodup_singleton _) ?_
    intro x hx hx2
    rw [List.mem_singleton.mp hx2] at hx
    exact hmem hx

theorem nodup_foldl_insert (l : List ReactionData) :
    ∀ acc : List ReactionData, (reactionKeys acc).Nodup →
      (reactionKeys (l.foldl insert_reaction acc)).Nodup := by
  induction l with
  | nil => intro acc h; exact h
  | cons a l ih => intro acc h; exact ih _ (nodup_insert_reaction acc a h)

theorem process_page_products_ne_nil (p : PageDoc) (url ts : String)
    (r : ReactionData) (h : r ∈ process_page p url ts) :
    r.product_smiles ≠ [] := by
  simp only [process_page, List.mem_filterMap] at h
  obtain ⟨a, _, ha⟩ := h
  cases hp : parse_smiles_string a with
  | none => rw [hp] at ha; cases ha
  | some parsed =>
    simp only [hp] at ha
    by_cases hprod : parsed.products = []
    · rw [if_pos hprod] at ha; cases ha
    · rw [if_neg hprod] at ha
      cases ha
      exact hprod

theorem scrape_loop_invariant (env : CrawlEnv) :
    ∀ (fuel : Nat) (cur : Option String) (seen : List String)
      (acc : List ReactionData),
      ((reactionKeys acc).Nodup →
        (reactionKeys (scrape_loop env cur seen fuel acc).1).Nodup) ∧
      (scrape_loop env cur seen fuel acc).2.Nodup ∧
      (∀ u ∈ (scrape_loop env cur seen fuel acc).2, u ∉ seen) ∧
      (scrape_loop env cur seen fuel acc).2.length ≤ fuel ∧
      (∀ r ∈ (scrape_loop env cur seen fuel acc).1,
        r ∈ acc ∨ r.product_smiles ≠ []) := by
  intro fuel
  induction fuel with
  | zero =>
    intro cur seen acc
    cases cur <;>
      exact ⟨fun h => h, List.nodup_nil, by simp [scrape_loop],
        by simp [scrape_loop], fun r hr => Or.inl hr⟩
  | succ n ih =>
    intro cur seen acc
    cases cur with
    | none =>
      exact ⟨fun h => h, List.nodup_nil, by simp [scrape_loop],
        by simp [scrape_loop], fun r hr => Or.inl hr⟩
    | some url =>
      by_cases h1 : url ∈ seen
      · rw [scrape_loop_seen env url seen n acc h1]
        exact ⟨fun h => h, List.nodup_nil, by simp, by simp,
          fun r hr => Or.inl hr⟩
      · cases h2 : env.fetch url with
        | none =>
          rw [scrape_loop_fetch_none env url seen n acc h1 h2]
          refine ⟨fun h => h, List.nodup_singleton url, ?_, by simp,
            fun r hr => Or.inl hr⟩
          intro u hu
          rw [List.mem_singleton.mp hu]
          exact h1
        | some html =>
          by_cases h3 : html = ""
          · rw [h3] at h2
            rw [scrape_loop_fetch_empty env url seen n acc h1 h2]
            refine ⟨fun h => h, List.nodup_singleton url, ?_, by simp,
              fun r hr => Or.inl hr⟩
            intro u hu
            rw [List.mem_singleton.mp hu]
            exact h1
          · rw [scrape_loop_step env url seen n acc html h1 h2 h3]
            obtain ⟨ihk, ihnd, ihns, ihlen, ihrec⟩ :=
              ih (find_next_page_url env.doi (env.parseDoc html).soup url)
                (url :: seen)
                ((process_page (env.parseDoc html) url (env.now (n + 1))).foldl
                  insert_reaction acc)
            refine ⟨?_, ?_, ?_, ?_, ?_⟩
            · intro h
              exact ihk (nodup_foldl_insert _ acc h)
            · refine List.Nodup.cons ?_ ihnd
              intro hmem
              exact (ihns url hmem) (List.mem_cons_self url seen)
            · intro u hu
              rcases List.mem_cons.mp hu with h' | h'
              · rw [h']; exact h1
              · intro hs
                exact (ihns u h') (List.mem_cons_of_mem url hs)
            · simpa using Nat.succ_le_succ ihlen
            · intro r hr
              rcases ihrec r hr with h' | h'
              · rcases mem_foldl_insert _ acc r h' with h'' | h''
                · exact Or.inl h''
                · exact Or.inr (process_page_products_ne_nil _ url _ r h'')
              · exact Or.inr h'

/-- Claim C2: within one `scrape` call the collected record list holds at
most one record per distinct `reaction_smiles` (its key list has no
duplicates), and a record whose key is already present is dropped, leaving
the accumulated list — hence the first-seen record — unchanged. -/
theorem claim_C2_dedup_invariant (env : CrawlEnv) (max_pages : Nat) :
    (reactionKeys (scrape env max_pages).1).Nodup ∧
    (∀ (acc : List ReactionData) (r : ReactionData),
      r.reaction_smiles ∈ reactionKeys acc → insert_reaction acc r = acc) := by
  constructor
  · exact (scrape_loop_invariant env max_pages (some (build_url env.doi 0))
      [] []).1 List.nodup_nil
  · intro acc r h
    unfold insert_reaction
    rw [if_pos h]

theorem claim_C2_witness :
    (reactionKeys (scrape (CrawlEnv.mk "d" (fun _ => none)
        (fun _ => PageDoc.mk (Soup.mk [] [] []) []) (fun _ => "t")) 1).1).Nodup ∧
    insert_reaction [ReactionData.mk "K" [] [] ["P"] "u" "t"]
        (ReactionData.mk "K" ["X"] [] ["Q"] "u2" "t2") =
      [ReactionData.mk "K" [] [] ["P"] "u" "t"] :=
  ⟨(claim_C2_dedup_invariant (CrawlEnv.mk "d" (fun _ => none)
      (fun _ => PageDoc.mk (Soup.mk [] [] []) []) (fun _ => "t")) 1).1,
   (claim_C2_dedup_invariant (CrawlEnv.mk "d" (fun _ => none)
      (fun _ => PageDoc.mk (Soup.mk [] [] []) []) (fun _ => "t")) 1).2
     [ReactionData.mk "K" [] [] ["P"] "u" "t"]
     (ReactionData.mk "K" ["X"] [] ["Q"] "u2" "t2") (by decide)⟩

/-- Claim C3: every record produced by `_process_page` has a non-empty
products list (failed parses and productless parses are rejected), and
hence so does every record accumulated by `scrape`. -/
theorem claim_C3_products_nonempty :
    (∀ (p : PageDoc) (url ts : String) (r : ReactionData),
      r ∈ process_page p url ts → r.product_smiles ≠ []) ∧
    (∀ (env : CrawlEnv) (max_pages : Nat) (r : ReactionData),
      r ∈ (scrape env max_pages).1 → r.product_smiles ≠ []) := by
  refine ⟨process_page_products_ne_nil, ?_⟩
  intro env mp r hr
  rcases (scrape_loop_invariant env mp (some (build_url env.doi 0))
      [] []).2.2.2.2 r hr with h | h
  · exact absurd h (List.not_mem_nil r)
  · exact h

theorem claim_C3_witness :
    ReactionData.mk "A>B>C" ["A"] ["B"] ["C"] (build_url "d" 0) "t" ∈
      (scrape (CrawlEnv.mk "d" (fun _ => some "page")
        (fun _ => PageDoc.mk (Soup.mk [Element.mk (some "A>B>C")] [] []) [])
        (fun _ => "t")) 1).1 ∧
    (ReactionData.mk "A>B>C" ["A"] ["B"] ["C"] (build_url "d" 0)
      "t").product_smiles ≠ [] :=
  ⟨by decide,
   claim_C3_products_nonempty.2
     (CrawlEnv.mk "d" (fun _ => some "page")
       (fun _ => PageDoc.mk (Soup.mk [Element.mk (some "A>B>C")] [] []) [])
       (fun _ => "t")) 1
     (ReactionData.mk "A>B>C" ["A"] ["B"] ["C"] (build_url "d" 0) "t")
     (by decide)⟩

/-- Claim C7: during one `scrape` call no URL is fetched twice (the list of
URLs passed to the fetcher has no duplicates), at most `max_pages` pages
are fetched, and arriving at an already-visited URL terminates the loop
before fetching, returning the records accumulated so far. -/
theorem claim_C7_no_url_twice (env : CrawlEnv) (max_pages : Nat) :
    (scrape env max_pages).2.Nodup ∧
    (scrape env max_pages).2.length ≤ max_pages ∧
    (∀ (url : String) (seen : List String) (fuel : Nat)
      (acc : List ReactionData), url ∈ seen →
      scrape_loop env (some url) seen (fuel + 1) acc = (acc, [])) := by
  have h := scrape_loop_invariant env max_pages (some (build_url env.doi 0)) [] []
  exact ⟨h.2.1, h.2.2.2.1, fun url seen fuel acc hm =>
    scrape_loop_seen env url seen fuel acc hm⟩

theorem claim_C7_witness :
    ("u" : String) ∈ ["u"] ∧
    scrape_loop (CrawlEnv.mk "d" (fun _ => none)
        (fun _ => PageDoc.mk (Soup.mk [] [] []) []) (fun _ => "t"))
      (some "u") ["u"] 1 [] = ([], []) :=
  ⟨by decide,
   (claim_C7_no_url_twice (CrawlEnv.mk "d" (fun _ => none)
      (fun _ => PageDoc.mk (Soup.mk [] [] []) []) (fun _ => "t")) 0).2.2
     "u" ["u"] 0 [] (by decide)⟩

/-- Claim C10: a successful fetch returning the empty page text is treated
exactly like a fetch failure: the loop stops at that page without
processing it, returns the records accumulated so far, and the outcome is
identical to that of a failed fetch of the same URL. -/
theorem claim_C10_empty_page_fetch (env env2 : CrawlEnv) (url : String)
    (seen : List String) (fuel : Nat) (acc : List ReactionData)
    (h1 : url ∉ seen) (h2 : env.fetch url = some "")
    (h3 : env2.fetch url = none) :
    scrape_loop env (some url) seen (fuel + 1) acc = (acc, [url]) ∧
    scrape_loop env (some url) seen (fuel + 1) acc =
      scrape_loop env2 (some url) seen (fuel + 1) acc := by
  have a := scrape_loop_fetch_empty env url seen fuel acc h1 h2
  have b := scrape_loop_fetch_none env2 url seen fuel acc h1 h3
  exact ⟨a, a.trans b.symm⟩

theorem claim_C10_witness :
    ("u" : String) ∉ ([] : List String) ∧
    scrape_loop (CrawlEnv.mk "d" (fun _ => some "")
        (fun _ => PageDoc.mk (Soup.mk [] [] []) []) (fun _ => "t"))
      (some "u") [] 1 [ReactionData.mk "K" [] [] ["P"] "u0" "t"] =
      ([ReactionData.mk "K" [] [] ["P"] "u0" "t"], ["u"]) :=
  ⟨by decide,
   (claim_C10_empty_page_fetch
     (CrawlEnv.mk "d" (fun _ => some "")
       (fun _ => PageDoc.mk (Soup.mk [] [] []) []) (fun _ => "t"))
     (CrawlEnv.mk "d" (fun _ => none)
       (fun _ => PageDoc.mk (Soup.mk [] [] []) []) (fun _ => "t"))
     "u" [] 0 [ReactionData.mk "K" [] [] ["P"] "u0" "t"]
     (by decide) rfl rfl).1⟩
